import Mathlib

/-!
# Verification of the gdedit advanced query parser

A shallow embedding of `src/public/js/components/queryParser.js`: the lexer
(`tokenize`), the recursive-descent parser (`parseTokens` / `parseQuery`), the
evaluator (`matchInstance` and its helpers `matchBare`, `matchClass`,
`matchIdClass`, `matchRelation`, `applyFilter`) and the query-history `add`
operation of `createQueryHistory`.

Modelling conventions:
* JavaScript strings are Lean `String`s (lists of characters); `toUpperCase` /
  `toLowerCase` are modelled with `Char.toUpper` / `Char.toLower`, which agree
  on the ASCII characters the queries use.
* JavaScript numbers are modelled as exact rationals (`ℚ`).  The lexer only
  produces numbers through `parseInt` / `parseFloat` on runs of `[0-9.-]`,
  whose mathematical value is an exact decimal; double-precision rounding and
  shortest-round-trip formatting are not modelled and no claim depends on them.
* `null` and absence are modelled with `Option`; the JS value universe is the
  inductive `JSVal` (strings, numbers, booleans, `null`, `undefined`, arrays,
  objects as insertion-ordered field lists).
* Loops are modelled with an explicit fuel argument so every definition is
  structurally recursive (hence kernel-computable).  In each case the fuel is
  chosen so that it can never run out: the lexer consumes at least one
  character per step and gets one unit of fuel per input character, and the
  parser's fuel exceeds the recursion depth, which is bounded by the number of
  remaining tokens (each level of `parseExpr` nesting consumes a `(` token and
  each chain iteration consumes an `AND`/`OR` token).
-/

namespace GDEdit

/-! ## JavaScript characters and strings -/

/-- The whitespace characters recognised by the JS regex `/\s/` and by
`String.prototype.trim` (restricted to the members that can occur in this
code base; the remaining Unicode space separators are never exercised). -/
def jsWhitespace (c : Char) : Bool :=
  c = ' ' || c = '\t' || c = '\n' || c = '\r' || c = '\x0b' || c = '\x0c' ||
  c = ' ' || c = '﻿'

/-- `String.prototype.trim`: strip leading and trailing whitespace. -/
def jsTrim (s : String) : String :=
  String.mk (((s.toList.dropWhile jsWhitespace).reverse.dropWhile jsWhitespace).reverse)

/-- `s.toLowerCase()`, character by character (ASCII-accurate, like the
queries). -/
def jsToLower (s : String) : String := String.mk (s.toList.map Char.toLower)

/-- Helper for `jsSplitDot`: split at every `.`, the accumulator holding the
current piece reversed. -/
def splitDotAux : List Char → List Char → List (List Char)
  | [], acc => [acc.reverse]
  | '.' :: rest, acc => acc.reverse :: splitDotAux rest []
  | c :: rest, acc => splitDotAux rest (c :: acc)

/-- `s.split('.')` for JS strings. -/
def jsSplitDot (s : String) : List String :=
  (splitDotAux s.toList []).map String.mk

/-- `hay.includes(needle)` for JS strings. -/
def strIncludes (hay needle : String) : Bool :=
  (List.range (hay.toList.length + 1)).any
    (fun i => needle.toList.isPrefixOf (hay.toList.drop i))

/-- Value of a list of decimal digit characters. -/
def digitsToNat (ds : List Char) : Nat :=
  ds.foldl (fun a d => 10 * a + (d.toNat - 48)) 0

/-! ## JavaScript values -/

/-- JS values as they occur in entity records and parsed queries: primitives,
`null`/`undefined`, arrays and plain objects (fields in insertion order). -/
inductive JSVal where
  | str (s : String)
  | num (q : ℚ)
  | bool (b : Bool)
  | nullV
  | undefV
  | arr (elems : List JSVal)
  | obj (fields : List (String × JSVal))

/-- Strict equality `===` on the values compared here.  Arrays and objects
compare by reference in JS; the comparisons performed by the evaluator always
put a freshly parsed primitive on one side, so two non-primitive operands are
never identical and the structural arms return `false`. -/
def jsStrictEq : JSVal → JSVal → Bool
  | .str a, .str b => a == b
  | .num a, .num b => a == b
  | .bool a, .bool b => a == b
  | .nullV, .nullV => true
  | .undefV, .undefV => true
  | _, _ => false

/-- JS falsiness of an optional value (`none` models `null`/`undefined`
produced by `parseValue`).  `NaN` cannot occur: a run that fails numeric
parsing is re-lexed as a string instead of producing a `NaN` token. -/
def jsFalsy : Option JSVal → Bool
  | none => true
  | some (.str s) => s == ""
  | some (.num q) => q.num == 0
  | some (.bool b) => !b
  | some .nullV => true
  | some .undefV => true
  | some (.arr _) => false
  | some (.obj _) => false

/-- Decimal-integer printing of an integer, as JS prints integral numbers. -/
def intStr (n : ℤ) : String :=
  if n < 0 then "-" ++ toString n.natAbs else toString n.natAbs

/-- Left-pad a digit string with zeros to the requested width. -/
def padZeros (s : String) (n : Nat) : String :=
  String.mk (List.replicate (n - s.length) '0') ++ s

/-- `String(number)` for the numbers this model produces: integers print in
decimal, finite decimal fractions print with their minimal digit count (which
coincides with JS's shortest-round-trip output for the short literals the
lexer can produce).  A rational with an infinite decimal expansion would need
double-precision semantics; it is unreachable from the lexer and the
placeholder arm is never evaluated by any claim. -/
def jsNumToString (q : ℚ) : String :=
  if q.den = 1 then intStr q.num
  else
    match (List.range 40).find? (fun k => q.den ∣ 10 ^ (k + 1)) with
    | some k =>
      let scale := 10 ^ (k + 1)
      let scaled := q.num.natAbs * (scale / q.den)
      let ip := scaled / scale
      let fp := scaled % scale
      (if q.num < 0 then "-" else "") ++ toString ip ++ "." ++
        padZeros (toString fp) (k + 1)
    | none => "[non-terminating decimal]"

mutual

/-- `String(v)` for a JS value; arrays join their elements with `,` and print
`null`/`undefined` elements as the empty string, as `Array.prototype.toString`
does. -/
def jsToString : JSVal → String
  | .str s => s
  | .num q => jsNumToString q
  | .bool true => "true"
  | .bool false => "false"
  | .nullV => "null"
  | .undefV => "undefined"
  | .arr es => String.intercalate "," (jsToStringArr es)
  | .obj _ => "[object Object]"

/-- Element-wise stringification of an array's contents. -/
def jsToStringArr : List JSVal → List String
  | [] => []
  | .nullV :: es => "" :: jsToStringArr es
  | .undefV :: es => "" :: jsToStringArr es
  | e :: es => jsToString e :: jsToStringArr es

end

/-- JSON string escaping as performed by `JSON.stringify`. -/
def jsonEscapeChar (c : Char) : String :=
  if c = '"' then "\\\""
  else if c = '\\' then "\\\\"
  else if c = '\n' then "\\n"
  else if c = '\r' then "\\r"
  else if c = '\t' then "\\t"
  else if c = '\x08' then "\\b"
  else if c = '\x0c' then "\\f"
  else if c.toNat < 32 then
    "\\u00" ++ String.mk [(Nat.digitChar (c.toNat / 16)), (Nat.digitChar (c.toNat % 16))]
  else String.singleton c

/-- Escape a whole string for JSON output. -/
def jsonEscape (s : String) : String :=
  String.join (s.toList.map jsonEscapeChar)

mutual

/-- `JSON.stringify` for the values the matcher serialises.  `undefined`
members of objects are skipped and `undefined` array elements print as
`null`, as in JS (a stringified top-level `undefined` never occurs at the
call sites, which always pass an object). -/
def jsonStringify : JSVal → String
  | .str s => "\"" ++ jsonEscape s ++ "\""
  | .num q => jsNumToString q
  | .bool true => "true"
  | .bool false => "false"
  | .nullV => "null"
  | .undefV => "null"
  | .arr es => "[" ++ String.intercalate "," (jsonStringifyArr es) ++ "]"
  | .obj fs => "\x7b" ++ String.intercalate "," (jsonStringifyFields fs) ++ "\x7d"

/-- Serialise the elements of an array. -/
def jsonStringifyArr : List JSVal → List String
  | [] => []
  | e :: es => jsonStringify e :: jsonStringifyArr es

/-- Serialise the members of an object, skipping `undefined` values. -/
def jsonStringifyFields : List (String × JSVal) → List String
  | [] => []
  | (_, .undefV) :: fs => jsonStringifyFields fs
  | (k, v) :: fs => ("\"" ++ jsonEscape k ++ "\":" ++ jsonStringify v) :: jsonStringifyFields fs

end

/-- First-match association-list lookup, the order JS object literals keep
their (unique) keys in. -/
def assoc {α : Type} (k : String) : List (String × α) → Option α
  | [] => none
  | (k', v) :: rest => if k' = k then some v else assoc k rest

/-- Property access `v[key]` for the accesses the evaluator performs: field
lookup on objects, `undefined` otherwise (in JS, property access on `null` or
`undefined` would throw, and string/array exotic properties such as `length`
exist; neither is reachable from the data shapes the evaluator touches). -/
def jsIndex (v : JSVal) (key : String) : JSVal :=
  match v with
  | .obj fields => (assoc key fields).getD .undefV
  | _ => .undefV

/-! ## Lexer (`tokenize`) -/

/-- Token types of the query lexer (`TokenType` plus the attached `value`). -/
inductive Token where
  | string (value : String)
  | number (value : ℚ)
  | bool (value : Bool)
  | colon | dot | lparen | rparen
  | and | or | not
  | relationArrow | lbracket | rbracket | eof
deriving DecidableEq, Repr

/-- The quoted-string loop: consume until the closing delimiter `q`, a
backslash escaping the character after it; a missing closing delimiter is
tolerated by consuming to end-of-input.  Returns the string contents and the
input after the closing delimiter. -/
def readQuoted (q : Char) : List Char → List Char × List Char
  | [] => ([], [])
  | c :: cs =>
    if c = q then ([], cs)
    else if c = '\\' then
      match cs with
      | [] => ([c], [])
      | d :: cs' =>
        let (s, r) := readQuoted q cs'
        (d :: s, r)
    else
      let (s, r) := readQuoted q cs
      (c :: s, r)

/-- Characters the number scanner accumulates: `/[\d.-]/`. -/
def numChar (c : Char) : Bool := c.isDigit || c = '.' || c = '-'

/-- Characters that terminate an unquoted string: `/[\s:.\[\]()"]/`. -/
def stopChar (c : Char) : Bool :=
  jsWhitespace c || c = ':' || c = '.' || c = '[' || c = ']' ||
  c = '(' || c = ')' || c = '"'

/-- `parseInt(s, 10)` restricted to the runs the lexer feeds it (characters
from `[0-9.-]`, never with leading whitespace): an optional sign followed by
the longest digit prefix; no digits means `NaN` (`none`). -/
def jsParseInt (cs : List Char) : Option ℚ :=
  let (neg, cs1) :=
    match cs with
    | '-' :: r => (true, r)
    | '+' :: r => (false, r)
    | _ => (false, cs)
  let ds := cs1.takeWhile Char.isDigit
  if ds.isEmpty then none
  else some (mkRat (if neg then -(digitsToNat ds : ℤ) else (digitsToNat ds : ℤ)) 1)

/-- `parseFloat(s)` restricted to the runs the lexer feeds it: an optional
sign, integer digits, an optional `.` and fraction digits — the longest such
prefix; at least one digit is required overall (exponents cannot occur in a
run over `[0-9.-]`).  The value is the exact decimal; double rounding is not
modelled (no claim compares a rounded value). -/
def jsParseFloat (cs : List Char) : Option ℚ :=
  let (neg, cs1) :=
    match cs with
    | '-' :: r => (true, r)
    | '+' :: r => (false, r)
    | _ => (false, cs)
  let ip := cs1.takeWhile Char.isDigit
  let rest := cs1.drop ip.length
  let fp :=
    match rest with
    | '.' :: r => r.takeWhile Char.isDigit
    | _ => []
  if ip.isEmpty && fp.isEmpty then none
  else
    let n : ℤ := digitsToNat ip * 10 ^ fp.length + digitsToNat fp
    some (mkRat (if neg then -n else n) (10 ^ fp.length))

/-- The number branch of the lexer: `parseFloat` when the run contains a `.`,
`parseInt` otherwise; `none` models `NaN`. -/
def jsParseNum (cs : List Char) : Option ℚ :=
  if cs.contains '.' then jsParseFloat cs else jsParseInt cs

/-- One iteration of the `tokenize` scan loop: the emitted token (if any)
and the remaining input.  The branches are the source's checks in order:
whitespace; the keyword literals `AND`/`OR`/`NOT` (case-insensitive, no
word-boundary check); the relation arrow `->:`; single-character
punctuation; a dash directly before `[` (dropped); quoted strings;
`true`/`false`; a `[0-9.-]` run starting with a digit or `-` that parses as
a number; otherwise an unquoted string up to the next stop character.  In
the source the failed-number case rewinds `i` and falls into the
unquoted-string section; here the two sections are merged into the final
`else`.  The `s.isEmpty` guard is unreachable — in this branch the head
character is never a stop character (the source would loop forever there);
consuming one character keeps the model total. -/
def tokStep : List Char → Option Token × List Char
  | [] => (none, [])
  | c :: cs =>
    let q := c :: cs
    if jsWhitespace c then (none, cs)
    else if (q.take 3).map Char.toUpper = ['A', 'N', 'D'] then
      (some Token.and, q.drop 3)
    else if (q.take 2).map Char.toUpper = ['O', 'R'] then
      (some Token.or, q.drop 2)
    else if (q.take 3).map Char.toUpper = ['N', 'O', 'T'] then
      (some Token.not, q.drop 3)
    else if q.take 3 = ['-', '>', ':'] then
      (some Token.relationArrow, q.drop 3)
    else if c = ':' then (some Token.colon, cs)
    else if c = '.' then (some Token.dot, cs)
    else if c = '(' then (some Token.lparen, cs)
    else if c = ')' then (some Token.rparen, cs)
    else if c = '[' then (some Token.lbracket, cs)
    else if c = ']' then (some Token.rbracket, cs)
    else if c = '-' && cs.head? = some '[' then (none, cs)
    else if c = '"' || c = '\'' then
      let (s, rest) := readQuoted c cs
      (some (Token.string (String.mk s)), rest)
    else if (q.take 4).map Char.toLower = ['t', 'r', 'u', 'e'] then
      (some (Token.bool true), q.drop 4)
    else if (q.take 5).map Char.toLower = ['f', 'a', 'l', 's', 'e'] then
      (some (Token.bool false), q.drop 5)
    else
      let num := q.takeWhile numChar
      if (c.isDigit || c = '-') && (jsParseNum num).isSome then
        (some (Token.number ((jsParseNum num).getD 0)), q.drop num.length)
      else
        let s := q.takeWhile (fun d => !stopChar d)
        if s.isEmpty then (none, cs)
        else (some (Token.string (String.mk s)), q.drop s.length)

/-- The `tokenize` scan loop, fuelled: each iteration consumes at least one
character, so fuel `≥` the number of remaining characters never runs out
(the out-of-fuel arm coincides with loop exit on the actual fuel). -/
def tokenizeAux : Nat → List Char → List Token
  | _, [] => [Token.eof]
  | 0, _ :: _ => [Token.eof]
  | f + 1, c :: cs =>
    match tokStep (c :: cs) with
    | (some t, rest) => t :: tokenizeAux f rest
    | (none, rest) => tokenizeAux f rest

/-- `tokenize(query)`: scan the whole string and terminate with `EOF`. -/
def tokenize (query : String) : List Token :=
  tokenizeAux (query.toList.length + 1) query.toList

/-! ## Parser (`parseTokens`, `parseQuery`) -/

/-- AST nodes produced by the parser (the `type` tags of the source's object
literals).  `classQ` is the source's `class` node. -/
inductive Ast where
  | empty
  | bare (value : Option JSVal)
  | classQ (cls : String) (property : Option String) (value : Option JSVal)
  | idclass (id : String) (cls : String) (value : Option JSVal)
  | relation (relation : String) (value : Option JSVal)
  | and (left right : Ast)
  | or (left right : Ast)
  | not (operand : Ast)

/-- `parseValue()`: consume one STRING/NUMBER/BOOL token, or return `null`
without consuming anything. -/
def parseVal : List Token → Option JSVal × List Token
  | Token.string s :: ts => (some (.str s), ts)
  | Token.number n :: ts => (some (.num n), ts)
  | Token.bool b :: ts => (some (.bool b), ts)
  | ts => (none, ts)

/-- The `while (consume(op)) { right = step(...); left = node(left, right) }`
loops of `parseOrExpr` / `parseAndExpr`.  Each iteration consumes the operator
token, so fuel `≥` the number of remaining tokens never runs out. -/
def chainOp (op : Token) (mk : Ast → Ast → Ast)
    (step : List Token → Except String (Ast × List Token)) :
    Nat → Ast → List Token → Except String (Ast × List Token)
  | 0, _, _ => .error "out of fuel"
  | f + 1, left, ts =>
    match ts with
    | t :: ts1 =>
      if t = op then
        match step ts1 with
        | .ok (right, ts2) => chainOp op mk step f (mk left right) ts2
        | .error e => .error e
      else .ok (left, ts)
    | [] => .ok (left, [])

/-- The recursive-descent core (`parseExpression` and, as local functions in
source order, `parsePrimary`, `parseNotExpr`, `parseAndExpr`, `parseOrExpr`).
The token cursor is the explicit list of remaining tokens; `throw` from
`expect` is the `Except.error` branch; the `pos--` backtrack after a `[` not
followed by `:` re-runs the later branches on the original list.  Fuel is
decremented once per expression level; descending into a parenthesised group
consumes a `(`, so fuel `>` the number of remaining tokens (plus the fixed
grammar depth) never runs out. -/
def parseExpr : Nat → List Token → Except String (Ast × List Token)
  | 0, _ => .error "out of fuel"
  | f + 1, ts =>
    -- Primary, part after the id:Class lookahead branches: ClassQuery | BareValue
    let parsePrimaryTail : List Token → Except String (Ast × List Token) := fun ts =>
      match ts with
      | Token.colon :: ts1 =>
        -- class query: :Class.property: value
        match ts1 with
        | Token.string cls :: ts2 =>
          match ts2 with
          | Token.dot :: ts3 =>
            match ts3 with
            | Token.string p :: ts4 =>
              match ts4 with
              | Token.colon :: ts5 =>
                let (v, ts6) := parseVal ts5
                .ok (Ast.classQ cls (some p) v, ts6)
              | _ => .error "Expected COLON"
            | _ => .error "Expected STRING"
          | Token.colon :: ts3 =>
            let (v, ts4) := parseVal ts3
            .ok (Ast.classQ cls none v, ts4)
          | _ => .error "Expected COLON"
        | _ => .error "Expected STRING"
      | _ =>
        -- bare value search
        let (v, ts1) := parseVal ts
        .ok (Ast.bare v, ts1)
    let parsePrimary : List Token → Except String (Ast × List Token) := fun ts =>
      match ts with
      | Token.lparen :: ts1 =>
        match parseExpr f ts1 with
        | .ok (e, ts2) =>
          match ts2 with
          | Token.rparen :: ts3 => .ok (e, ts3)
          | _ => .error "Expected RPAREN"
        | .error e => .error e
      | Token.lbracket :: Token.colon :: ts2 =>
        -- relation query: -[:RELATION]->: value
        match ts2 with
        | Token.string rel :: Token.rbracket :: Token.relationArrow :: ts5 =>
          let (v, ts6) := parseVal ts5
          .ok (Ast.relation rel v, ts6)
        | Token.string _ :: Token.rbracket :: _ => .error "Expected RELATION_ARROW"
        | Token.string _ :: _ => .error "Expected RBRACKET"
        | _ => .error "Expected STRING"
      | Token.string id :: Token.colon :: Token.string cls :: Token.colon :: ts4 =>
        -- id:Class: value
        let (v, ts5) := parseVal ts4
        .ok (Ast.idclass id cls v, ts5)
      | Token.string id :: Token.colon :: Token.string cls :: t4 :: ts4 =>
        -- id:Class followed by EOF / AND / OR / RPAREN
        if t4 = Token.eof || t4 = Token.and || t4 = Token.or || t4 = Token.rparen then
          .ok (Ast.idclass id cls none, t4 :: ts4)
        else parsePrimaryTail ts
      | _ => parsePrimaryTail ts
    let parseNotExpr : List Token → Except String (Ast × List Token) := fun ts =>
      match ts with
      | Token.not :: ts1 =>
        match parsePrimary ts1 with
        | .ok (a, ts2) => .ok (Ast.not a, ts2)
        | .error e => .error e
      | _ => parsePrimary ts
    let parseAndExpr : List Token → Except String (Ast × List Token) := fun ts =>
      match parseNotExpr ts with
      | .ok (l, ts1) => chainOp Token.and Ast.and parseNotExpr f l ts1
      | .error e => .error e
    -- parseOrExpr
    match parseAndExpr ts with
    | .ok (l, ts1) => chainOp Token.or Ast.or parseAndExpr f l ts1
    | .error e => .error e

/-- Fuel handed to `parseExpr`; comfortably larger than the maximal recursion
depth, which is bounded by the number of tokens. -/
def parseFuel (ts : List Token) : Nat := 2 * ts.length + 4

/-- `parseTokens(tokens)`: parse one expression and return its AST, ignoring
whatever tokens follow it. -/
def parseTokens (ts : List Token) : Except String Ast :=
  match parseExpr (parseFuel ts) ts with
  | .ok (a, _) => .ok a
  | .error e => .error e

/-- `parseQuery(query)`: `none` models a `null`/non-string argument; falsy or
whitespace-only input yields the `empty` node; a parse exception is caught
and replaced by a `bare` node over the trimmed input. -/
def parseQuery : Option String → Ast
  | none => .empty
  | some s =>
    if s = "" then .empty
    else
      let trimmed := jsTrim s
      if trimmed = "" then .empty
      else
        match parseTokens (tokenize trimmed) with
        | .ok ast => ast
        | .error _ => .bare (some (.str trimmed))

/-! ## Evaluator (`matchInstance`, `applyFilter`) -/

/-- An entity record as the evaluator reads it: id, class, named components
and named relation target lists.  `components` and `relations` are modelled
as present (possibly empty) maps; an entity with the fields absent behaves
like one with empty maps at every evaluator call site. -/
structure Inst where
  _id : String
  _class : String
  components : List (String × JSVal)
  relations : List (String × List JSVal)

/-- `matchBare`: falsy search matches everything, otherwise case-insensitive
substring search over the id, the class and the JSON-serialised components. -/
def matchBare (inst : Inst) (search : Option JSVal) : Bool :=
  if jsFalsy search then true
  else
    let s := jsToLower (jsToString (search.getD .undefV))
    strIncludes (jsToLower inst._id) s ||
    strIncludes (jsToLower inst._class) s ||
    strIncludes (jsToLower (jsonStringify (.obj inst.components))) s

/-- `matchClass`: optional exact class check, then — when both a property and
a value are present — split the property on `.` into `(localName, prop)`,
read `components[localName][prop]` and compare (strict equality for boolean
query values, string coercion otherwise).  A dot-free property makes `prop`
`undefined`, and `obj[undefined]` in JS reads the key `"undefined"`, which the
`Option.getD "undefined"` mirrors. -/
def matchClass (inst : Inst) (cls : String) (property : Option String)
    (value : Option JSVal) : Bool :=
  if cls != "" && inst._class != cls then false
  else if property.getD "" != "" && value.isSome then
    let parts := jsSplitDot (property.getD "")
    let localName := parts.headD ""
    let prop := parts[1]?
    let fieldVal :=
      match assoc localName inst.components with
      | none => JSVal.undefV
      | some v => jsIndex v (prop.getD "undefined")
    match value with
    | some (.bool b) => jsStrictEq fieldVal (.bool b)
    | some v => jsToString fieldVal == jsToString v
    | none => true
  else true

/-- The id-wildcard test: `new RegExp('^' + pattern.replace(/\*/g, '.*') +
'$', 'i').test(s)`.  In the compiled pattern `*` becomes `.*` and a literal
`.` is the regex any-character; all other characters the ids use are regex
literals, compared case-insensitively.  (Regex metacharacters other than `.`
inside an id pattern are not modelled.) -/
def globMatch : List Char → List Char → Bool
  | [], s => s.isEmpty
  | '*' :: ps, s =>
    globMatch ps s ||
      (match s with
       | [] => false
       | _ :: s' => globMatch ('*' :: ps) s')
  | '.' :: ps, s =>
    (match s with
     | [] => false
     | _ :: s' => globMatch ps s')
  | p :: ps, s =>
    (match s with
     | [] => false
     | c :: s' => p.toLower == c.toLower && globMatch ps s')
termination_by ps s => (ps.length, s.length)

/-- `matchIdClass`: id pattern (any for `*`/`**`, glob for patterns with `*`,
case-insensitive equality otherwise), optional exact class check, and — when
a value is present — a substring search over the serialised components. -/
def matchIdClass (inst : Inst) (id cls : String) (value : Option JSVal) : Bool :=
  if id != "" &&
      !(if id == "*" || id == "**" then true
        else if id.toList.contains '*' then globMatch id.toList inst._id.toList
        else jsToLower inst._id == jsToLower id) then false
  else if cls != "" && inst._class != cls then false
  else
    match value with
    | some v =>
      strIncludes (jsToLower (jsonStringify (.obj inst.components))) (jsToLower (jsToString v))
    | none => true

/-- A relation target as the evaluator compares it: a string is itself, any
other value is unwrapped to its `_to` field (`typeof r === 'string' ? r :
r._to`). -/
def relTarget (r : JSVal) : JSVal :=
  match r with
  | .str s => .str s
  | r => jsIndex r "_to"

/-- `matchRelation`: absent relation name → no match; with no query value,
any target suffices; with a value, some unwrapped target must be strictly
equal to it. -/
def matchRelation (inst : Inst) (relation : String) (value : Option JSVal) : Bool :=
  match assoc relation inst.relations with
  | none => false
  | some targets =>
    match value with
    | none => decide (0 < targets.length)
    | some v => targets.any (fun r => jsStrictEq (relTarget r) v)

/-- `matchInstance`: evaluate an AST against one entity. -/
def matchInstance (inst : Inst) : Ast → Bool
  | .empty => true
  | .bare v => matchBare inst v
  | .classQ c p v => matchClass inst c p v
  | .idclass i c v => matchIdClass inst i c v
  | .relation r v => matchRelation inst r v
  | .and l r => matchInstance inst l && matchInstance inst r
  | .or l r => matchInstance inst l || matchInstance inst r
  | .not a => !matchInstance inst a

/-- `applyFilter`: a `null` or `empty` AST keeps every instance, otherwise
filter by `matchInstance`. -/
def applyFilter (instances : List Inst) (ast : Option Ast) : List Inst :=
  match ast with
  | none => instances
  | some Ast.empty => instances
  | some a => instances.filter (fun inst => matchInstance inst a)

/-! ## Query history (`createQueryHistory().add`) -/

/-- The pure content of `createQueryHistory(maxSize).add(query)` on the
in-memory list (persistence through `localStorage` is an external effect the
claims do not touch): ignore `null`/non-string (`none`) and inputs trimming
to the empty string; otherwise trim, drop existing identical entries, insert
at the front and truncate to `maxSize`. -/
def historyAdd (maxSize : Nat) (history : List String) (query : Option String) :
    List String :=
  match query with
  | none => history
  | some q =>
    let trimmed := jsTrim q
    if trimmed = "" then history
    else
      let deduped := history.filter (fun h => h != trimmed)
      let fronted := trimmed :: deduped
      if fronted.length > maxSize then fronted.take maxSize else fronted

/-! ## Sample entities used by the concrete scenarios -/

/-- Scenario 2's `p1` with a boolean `identity.active`. -/
def p1 : Inst :=
  ⟨"p1", "Person", [("identity", .obj [("active", .bool true)])], []⟩

/-- Scenario 2's `p1` variant whose `identity.active` is the string
`"true"`. -/
def p1s : Inst :=
  ⟨"p1", "Person", [("identity", .obj [("active", .str "true")])], []⟩

/-- Scenario 4's entity with `relations.MEMBER_OF = ["team-zulu"]`. -/
def zuluInst : Inst := ⟨"e1", "Person", [], [("MEMBER_OF", [.str "team-zulu"])]⟩

/-- Scenario 4's entity with `relations.MEMBER_OF = ["team-yankee"]`. -/
def yankeeInst : Inst := ⟨"e2", "Person", [], [("MEMBER_OF", [.str "team-yankee"])]⟩

/-- An entity whose relation target is an object carrying a `to` field (the
field name the spec mentions) rather than the `_to` field the code reads. -/
def toFieldInst : Inst :=
  ⟨"e3", "Person", [], [("MEMBER_OF", [.obj [("to", .str "team-zulu")]])]⟩

/-- An entity whose relation target is an object carrying `_to`, the field
name the code and the rest of the code base use. -/
def underscoreToInst : Inst :=
  ⟨"e4", "Person", [], [("MEMBER_OF", [.obj [("_to", .str "team-zulu")]])]⟩

/-! ## Shared lemmas -/

/-- Whitespace characters are fixed by `Char.toUpper`. -/
theorem toUpper_of_jsWhitespace (c : Char) (hw : jsWhitespace c = true) :
    Char.toUpper c = c := by
  simp only [jsWhitespace, Bool.or_eq_true, decide_eq_true_eq] at hw
  rcases hw with ((((((h | h) | h) | h) | h) | h) | h) | h <;> subst h <;> decide

/-- A character whose upper-case form is a keyword letter is not whitespace. -/
theorem not_ws_of_toUpper (c u : Char) (h : Char.toUpper c = u)
    (hu : jsWhitespace u = false) : jsWhitespace c = false := by
  cases hw : jsWhitespace c
  · rfl
  · exfalso
    rw [toUpper_of_jsWhitespace c hw] at h
    subst h
    rw [hw] at hu
    exact Bool.noConfusion hu

/-- The upper-cased head of a non-empty take. -/
theorem toUpper_head (c : Char) (l : List Char) (n : Nat) (u : Char) (us : List Char)
    (h : ((c :: l).take (n + 1)).map Char.toUpper = u :: us) : Char.toUpper c = u := by
  rw [List.take_succ_cons, List.map_cons] at h
  exact (List.cons.injEq _ _ _ _ ▸ h).1

/-! ## Claims -/

/-- C5: for every entity and all sub-ASTs, `matchInstance` interprets `and`,
`or` and `not` as boolean conjunction, disjunction and negation, and hence
satisfies double-negation elimination. -/
theorem c5_matchInstance_boolean_algebra (e : Inst) (a b : Ast) :
    matchInstance e (.and a b) = (matchInstance e a && matchInstance e b) ∧
    matchInstance e (.or a b) = (matchInstance e a || matchInstance e b) ∧
    matchInstance e (.not a) = (!matchInstance e a) ∧
    matchInstance e (.not (.not a)) = matchInstance e a :=
  ⟨rfl, rfl, rfl, Bool.not_not (matchInstance e a)⟩

/-- C3: whenever the scan loop starts at a position whose next characters
case-insensitively spell `AND`, `OR` or `NOT`, it emits the corresponding
operator token (consuming exactly those characters), with no word-boundary
check; in particular `tokenize("organization")` starts with an `OR` token
followed by the string `"ganization"`. -/
theorem c3_keyword_tokens (f : Nat) (cs : List Char) :
    ((cs.take 3).map Char.toUpper = ['A', 'N', 'D'] →
      tokenizeAux (f + 1) cs = Token.and :: tokenizeAux f (cs.drop 3)) ∧
    ((cs.take 2).map Char.toUpper = ['O', 'R'] →
      tokenizeAux (f + 1) cs = Token.or :: tokenizeAux f (cs.drop 2)) ∧
    ((cs.take 3).map Char.toUpper = ['N', 'O', 'T'] →
      tokenizeAux (f + 1) cs = Token.not :: tokenizeAux f (cs.drop 3)) ∧
    tokenize "organization" = [Token.or, Token.string "ganization", Token.eof] := by
  refine ⟨?_, ?_, ?_, rfl⟩
  · intro h
    match cs with
    | [] => simp at h
    | c :: rest =>
      have h1 : Char.toUpper c = 'A' := toUpper_head c rest 2 'A' ['N', 'D'] h
      have hws : jsWhitespace c = false := not_ws_of_toUpper c 'A' h1 (by decide)
      have hstep : tokStep (c :: rest) = (some Token.and, (c :: rest).drop 3) := by
        rw [tokStep]
        rw [if_neg (by simp [hws]), if_pos h]
      rw [tokenizeAux, hstep]
  · intro h
    match cs with
    | [] => simp at h
    | c :: rest =>
      have h1 : Char.toUpper c = 'O' := toUpper_head c rest 1 'O' ['R'] h
      have hws : jsWhitespace c = false := not_ws_of_toUpper c 'O' h1 (by decide)
      have hA : ¬((c :: rest).take 3).map Char.toUpper = ['A', 'N', 'D'] := by
        intro hand
        have := toUpper_head c rest 2 'A' ['N', 'D'] hand
        rw [h1] at this
        exact absurd this (by decide)
      have hstep : tokStep (c :: rest) = (some Token.or, (c :: rest).drop 2) := by
        rw [tokStep]
        rw [if_neg (by simp [hws]), if_neg hA, if_pos h]
      rw [tokenizeAux, hstep]
  · intro h
    match cs with
    | [] => simp at h
    | c :: rest =>
      have h1 : Char.toUpper c = 'N' := toUpper_head c rest 2 'N' ['O', 'T'] h
      have hws : jsWhitespace c = false := not_ws_of_toUpper c 'N' h1 (by decide)
      have hA : ¬((c :: rest).take 3).map Char.toUpper = ['A', 'N', 'D'] := by
        intro hand
        have := toUpper_head c rest 2 'A' ['N', 'D'] hand
        rw [h1] at this
        exact absurd this (by decide)
      have hO : ¬((c :: rest).take 2).map Char.toUpper = ['O', 'R'] := by
        intro hor
        have := toUpper_head c rest 1 'O' ['R'] hor
        rw [h1] at this
        exact absurd this (by decide)
      have hstep : tokStep (c :: rest) = (some Token.not, (c :: rest).drop 3) := by
        rw [tokStep]
        rw [if_neg (by simp [hws]), if_neg hA, if_neg hO, if_pos h]
      rw [tokenizeAux, hstep]

/-- Witness for C3 at the concrete input `"andy"`: its first three characters
spell `AND`, so the scanner emits the operator token. -/
theorem c3_keyword_tokens_witness :
    tokenizeAux 5 "andy".toList = Token.and :: tokenizeAux 4 ("andy".toList.drop 3) :=
  (c3_keyword_tokens 4 "andy".toList).1 (by decide)

/-- C1: `parseQuery` is total (it is a Lean function into `Ast`, so it
terminates and returns an AST on every input); a `null`/empty/whitespace-only
input yields the `empty` node; whenever the token-level parse raises, the
result is exactly the `bare` node over the trimmed input — as it is, for
instance, on the unterminated group `"(foo"`. -/
theorem c1_parseQuery_total (s : String) :
    (∃ a : Ast, parseQuery (some s) = a) ∧
    parseQuery none = .empty ∧
    (jsTrim s = "" → parseQuery (some s) = .empty) ∧
    (∀ e, parseTokens (tokenize (jsTrim s)) = .error e →
      parseQuery (some s) = .bare (some (.str (jsTrim s)))) ∧
    parseQuery (some "(foo") = .bare (some (.str "(foo")) := by
  have hempty : parseTokens (tokenize "") = .ok (.bare none) := rfl
  refine ⟨⟨_, rfl⟩, rfl, ?_, ?_, rfl⟩
  · intro ht
    by_cases hs : s = ""
    · subst hs; rfl
    · simp only [parseQuery, if_neg hs, ht, if_true]
  · intro e he
    have hs : s ≠ "" := by
      intro h
      subst h
      rw [show jsTrim "" = "" from rfl, hempty] at he
      exact Except.noConfusion he
    have ht : jsTrim s ≠ "" := by
      intro h
      rw [h, hempty] at he
      exact Except.noConfusion he
    simp only [parseQuery, if_neg hs, if_neg ht, he]

/-- Witness for C1: the whitespace-only input `"  "` gives the `empty` node,
and on `"(foo"` (where the parser raises on the missing `)`) the fallback
produces the `bare` node over the trimmed input. -/
theorem c1_parseQuery_total_witness :
    parseQuery (some "  ") = .empty ∧
    parseQuery (some " (foo ") = .bare (some (.str "(foo")) :=
  ⟨(c1_parseQuery_total "  ").2.2.1 rfl,
   (c1_parseQuery_total " (foo ").2.2.2.1 "Expected RPAREN" rfl⟩

/-- C4: `OR` binds loosest, then `AND`, then `NOT`; `AND`/`OR` chains are
left-associative; and `Person AND NOT :Team:` parses to
`and(bare("Person"), not(class("Team", null, null)))`. -/
theorem c4_precedence :
    parseQuery (some "a AND b AND c") =
      .and (.and (.bare (some (.str "a"))) (.bare (some (.str "b"))))
        (.bare (some (.str "c"))) ∧
    parseQuery (some "x OR y OR z") =
      .or (.or (.bare (some (.str "x"))) (.bare (some (.str "y"))))
        (.bare (some (.str "z"))) ∧
    parseQuery (some "x OR y AND z") =
      .or (.bare (some (.str "x")))
        (.and (.bare (some (.str "y"))) (.bare (some (.str "z")))) ∧
    parseQuery (some "NOT x AND y") =
      .and (.not (.bare (some (.str "x")))) (.bare (some (.str "y"))) ∧
    parseQuery (some "Person AND NOT :Team:") =
      .and (.bare (some (.str "Person"))) (.not (.classQ "Team" none none)) :=
  ⟨rfl, rfl, rfl, rfl, rfl⟩

/-- C7 counterexample: on the malformed decimal run `"1.2.3"` the lexer does
not fall back to a STRING token — `parseFloat` parses the prefix `1.2`, so
the whole run is consumed into a NUMBER token. -/
theorem c7_counterexample :
    tokenize "1.2.3" ≠ [Token.string "1.2.3", Token.eof] ∧
    tokenize "1.2.3" = [Token.number (mkRat 6 5), Token.eof] := by
  exact ⟨by decide, by decide⟩

/-- C7 (amended): the STRING fallback happens exactly when JS numeric
parsing of the run returns `NaN` (`parseInt` for dot-free runs, `parseFloat`
otherwise, both of which accept any parsable prefix) — e.g. for the runs
`"-"` and `"--3"` — while a multi-dot run such as `"1.2.3"` parses as the
prefix `1.2` and is emitted as a NUMBER token consuming the whole run. -/
theorem c7_number_fallback :
    tokenize "1.2.3" = [Token.number (mkRat 6 5), Token.eof] ∧
    jsParseNum "1.2.3".toList = some (mkRat 6 5) ∧
    tokenize "12-34" = [Token.number (mkRat 12 1), Token.eof] ∧
    tokenize "-" = [Token.string "-", Token.eof] ∧
    jsParseNum "-".toList = none ∧
    tokenize "--3" = [Token.string "--3", Token.eof] ∧
    jsParseNum "--3".toList = none := by
  refine ⟨by decide, by decide, by decide, by decide, by decide, by decide, by decide⟩

/-- C2 counterexample: the query `:Person.identity.active: true` does not
match `p1` (whose `components.identity.active` is the boolean `true`): the
parser rejects the second `.` of the dotted property, `parseQuery` degrades
to a `bare` search for the raw text, and that text occurs nowhere in `p1`. -/
theorem c2_counterexample :
    matchInstance p1 (parseQuery (some ":Person.identity.active: true")) = false :=
  rfl

/-- C2 (amended): `:Person.identity.active: true` fails token-level parsing
at the dotted property and degrades to a `bare` search matching neither
variant of `p1`.  The intended class-filter semantics are reachable with a
quoted property, where a boolean query value compares strictly — matching
the boolean field but not the string `"true"` field — and a quoted (string)
query value compares by string coercion, matching both. -/
theorem c2_class_property_query :
    parseQuery (some ":Person.identity.active: true") =
      .bare (some (.str ":Person.identity.active: true")) ∧
    matchInstance p1 (parseQuery (some ":Person.identity.active: true")) = false ∧
    matchInstance p1s (parseQuery (some ":Person.identity.active: true")) = false ∧
    parseQuery (some ":Person.\"identity.active\": true") =
      .classQ "Person" (some "identity.active") (some (.bool true)) ∧
    matchInstance p1 (.classQ "Person" (some "identity.active") (some (.bool true))) = true ∧
    matchInstance p1s (.classQ "Person" (some "identity.active") (some (.bool true))) = false ∧
    matchInstance p1 (.classQ "Person" (some "identity.active") (some (.str "true"))) = true ∧
    matchInstance p1s (.classQ "Person" (some "identity.active") (some (.str "true"))) = true :=
  ⟨rfl, rfl, rfl, rfl, rfl, rfl, rfl, rfl⟩

/-- C6 counterexample: an object relation target carrying the field `to`
(the name the claim uses) does not match — the code unwraps targets through
the field `_to`, the name the rest of the code base stores. -/
theorem c6_counterexample :
    matchRelation toFieldInst "MEMBER_OF" (some (.str "team-zulu")) = false :=
  rfl

/-- C6 (amended): an absent relation name never matches; with no query value
the node matches iff the target list is non-empty; with a value it matches
iff some target — a bare string, or any other value unwrapped to its `_to`
field — is strictly equal to it.  The `MEMBER_OF`/`team-zulu` scenario
behaves as claimed, as does an object target carrying `_to`. -/
theorem c6_matchRelation (inst : Inst) (name : String) (v : JSVal) :
    (assoc name inst.relations = none →
      ∀ w, matchRelation inst name w = false) ∧
    (∀ ts, assoc name inst.relations = some ts →
      matchRelation inst name none = decide (0 < ts.length)) ∧
    (∀ ts, assoc name inst.relations = some ts →
      matchRelation inst name (some v) =
        ts.any (fun r => jsStrictEq (relTarget r) v)) ∧
    matchRelation underscoreToInst "MEMBER_OF" (some (.str "team-zulu")) = true ∧
    matchInstance zuluInst (parseQuery (some "-[:MEMBER_OF]->: team-zulu")) = true ∧
    matchInstance yankeeInst (parseQuery (some "-[:MEMBER_OF]->: team-zulu")) = false := by
  refine ⟨?_, ?_, ?_, rfl, rfl, rfl⟩
  · intro h w
    simp only [matchRelation, h]
  · intro ts h
    simp only [matchRelation, h]
  · intro ts h
    simp only [matchRelation, h]

/-- Witness for C6 at the scenario entity: its `MEMBER_OF` target list is
present, so the value branch reduces to the strict-equality scan. -/
theorem c6_matchRelation_witness :
    matchRelation zuluInst "MEMBER_OF" (some (.str "team-zulu")) =
      [JSVal.str "team-zulu"].any
        (fun r => jsStrictEq (relTarget r) (.str "team-zulu")) :=
  (c6_matchRelation zuluInst "MEMBER_OF" (.str "team-zulu")).2.2.1
    [JSVal.str "team-zulu"] rfl

/-- C8: `add` ignores `null`/non-string input and input trimming to the
empty string; otherwise it trims, removes every entry equal to the trimmed
string, inserts it at the front and truncates to `maxSize`; in particular
adding `"a"`, `"b"`, `"a"` to an empty history yields `["a", "b"]`. -/
theorem c8_historyAdd (maxSize : Nat) (h : List String) :
    historyAdd maxSize h none = h ∧
    (∀ q, jsTrim q = "" → historyAdd maxSize h (some q) = h) ∧
    (∀ q, jsTrim q ≠ "" →
      historyAdd maxSize h (some q) =
        (jsTrim q :: h.filter (fun x => x != jsTrim q)).take maxSize) ∧
    historyAdd 20 (historyAdd 20 (historyAdd 20 [] (some "a")) (some "b"))
      (some "a") = ["a", "b"] := by
  refine ⟨rfl, ?_, ?_, rfl⟩
  · intro q hq
    simp only [historyAdd, hq, if_true]
  · intro q hq
    simp only [historyAdd, if_neg hq]
    by_cases hl : (jsTrim q :: h.filter (fun x => x != jsTrim q)).length > maxSize
    · rw [if_pos hl]
    · rw [if_neg hl, List.take_of_length_le (Nat.le_of_not_lt hl)]

/-- Witness for C8: adding `" a "` to the history `["x"]` trims, fronts and
keeps the other entry. -/
theorem c8_historyAdd_witness :
    historyAdd 20 ["x"] (some " a ") = ["a", "x"] := by
  rw [(c8_historyAdd 20 ["x"]).2.2.1 " a " (by decide)]
  decide

/-- C9: `parseTokens` returns the first parsed expression without requiring
the EOF token to have been reached, silently discarding trailing tokens; in
particular `parseQuery("jdoe::")` is `bare("jdoe")`, the two trailing COLON
tokens being ignored. -/
theorem c9_parseTokens_discards_rest :
    (∀ (ts : List Token) (a : Ast) (rest : List Token),
      parseExpr (parseFuel ts) ts = .ok (a, rest) → parseTokens ts = .ok a) ∧
    parseQuery (some "jdoe::") = .bare (some (.str "jdoe")) := by
  refine ⟨?_, rfl⟩
  intro ts a rest h
  simp only [parseTokens, h]

/-- Witness for C9 on `"jdoe::"`: the expression parser stops after `jdoe`
with the two COLON tokens (and EOF) unconsumed, and `parseTokens` still
succeeds. -/
theorem c9_parseTokens_discards_rest_witness :
    parseTokens (tokenize "jdoe::") = .ok (.bare (some (.str "jdoe"))) :=
  c9_parseTokens_discards_rest.1 (tokenize "jdoe::") (.bare (some (.str "jdoe")))
    [Token.colon, Token.colon, Token.eof] rfl

/-- C10: `matchBare` accepts every entity when the search value is falsy
(`null`, `""`, `0`, `false`); the query `"AND"` parses to
`and(bare(null), bare(null))`; and `applyFilter` with that AST keeps every
entity. -/
theorem c10_falsy_bare_matches_all :
    (∀ (inst : Inst) (v : Option JSVal), jsFalsy v = true → matchBare inst v = true) ∧
    parseQuery (some "AND") = .and (.bare none) (.bare none) ∧
    (∀ insts : List Inst,
      applyFilter insts (some (.and (.bare none) (.bare none))) = insts) := by
  refine ⟨?_, rfl, ?_⟩
  · intro inst v h
    simp only [matchBare, h, if_true]
  · intro insts
    show insts.filter _ = insts
    exact List.filter_eq_self.mpr (fun a _ => rfl)

/-- Witness for C10: the falsy searches `null`, `""`, `0` and `false` all
match `p1`. -/
theorem c10_falsy_bare_matches_all_witness :
    matchBare p1 none = true ∧
    matchBare p1 (some (.str "")) = true ∧
    matchBare p1 (some (.num (mkRat 0 1))) = true ∧
    matchBare p1 (some (.bool false)) = true :=
  ⟨c10_falsy_bare_matches_all.1 p1 none rfl,
   c10_falsy_bare_matches_all.1 p1 (some (.str "")) rfl,
   c10_falsy_bare_matches_all.1 p1 (some (.num (mkRat 0 1))) rfl,
   c10_falsy_bare_matches_all.1 p1 (some (.bool false)) rfl⟩

end GDEdit
